import Mathlib

/-!
Verification of the audio core of the Listen-to-your-Paper application:
the PCM decoder, the WAV encoder, and the playback controller of
`src/components/AnalysisView.tsx`.  The decoder and encoder live in
`utils/audioUtils.ts`, which is only imported by the view; their
behaviour is modelled from the specification.  The playback controller
(`togglePlayback`, `updateProgress`, the `onended` handler and the
effect cleanup) is embedded directly from `AnalysisView.tsx`.
-/

namespace AudioCore

/-- Clamp a normalized sample into `[-1, 1]`, as `clamp(sample, -1, 1)`. -/
def clamp1 (s : ℚ) : ℚ := max (-1) (min 1 s)

/-- Modelled from the spec: `utils/audioUtils.ts` is not part of the given
source tree.  Quantization of one sample for the WAV data chunk:
`round(clamp(sample, -1, 1) * 32767)`. -/
def quantize (s : ℚ) : ℤ := round (clamp1 s * 32767)

/-- Modelled from the spec: dequantization used by the PCM decoder,
`int16Sample / 32768`. -/
def dequantize (i : ℤ) : ℚ := (i : ℚ) / 32768

/-- Little-endian encoding of a 16-bit unsigned value as two bytes. -/
def u16le (n : ℕ) : List ℕ := [n % 256, n / 256 % 256]

/-- Little-endian encoding of a 32-bit unsigned value as four bytes. -/
def u32le (n : ℕ) : List ℕ :=
  [n % 256, n / 256 % 256, n / 65536 % 256, n / 16777216 % 256]

/-- A signed 16-bit sample encoded little-endian as its two's complement. -/
def int16ToBytes (i : ℤ) : List ℕ := u16le (i % 65536).toNat

/-- The data chunk payload: each sample quantized and written as a
little-endian signed 16-bit value, in order. -/
def pcmBytes : List ℚ → List ℕ
  | [] => []
  | s :: rest => int16ToBytes (quantize s) ++ pcmBytes rest

/-- Modelled from the spec: `createWavBlob` of `utils/audioUtils.ts` is not
part of the given source tree.  Builds the RIFF/WAVE container: a 44-byte
header (chunk id RIFF, chunk size `36 + dataByteCount`, format WAVE,
fmt subchunk of size 16 with PCM format 1, mono, the given sample rate,
byte rate `sampleRate * 2`, block align 2, 16 bits per sample, and a data
subchunk of size `sampleCount * 2`) followed by the quantized samples. -/
def createWavBlob (samples : List ℚ) (sampleRate : ℕ) : List ℕ :=
  let dataSize := samples.length * 2
  [82, 73, 70, 70] ++ u32le (36 + dataSize) ++
  [87, 65, 86, 69] ++
  [102, 109, 116, 32] ++ u32le 16 ++ u16le 1 ++ u16le 1 ++
  u32le sampleRate ++ u32le (sampleRate * 2) ++ u16le 2 ++ u16le 16 ++
  [100, 97, 116, 97] ++ u32le dataSize ++
  pcmBytes samples

/-- Numeric value of one base64 alphabet character (A-Z, a-z, 0-9, +, /),
by character code; `none` for anything outside the alphabet. -/
def b64Val (c : Char) : Option ℕ :=
  if 65 ≤ c.toNat ∧ c.toNat ≤ 90 then some (c.toNat - 65)
  else if 97 ≤ c.toNat ∧ c.toNat ≤ 122 then some (c.toNat - 97 + 26)
  else if 48 ≤ c.toNat ∧ c.toNat ≤ 57 then some (c.toNat - 48 + 52)
  else if c.toNat = 43 then some 62
  else if c.toNat = 47 then some 63
  else none

/-- Modelled from the spec: strict base64 decoding (the `atob` step of the
PCM decoder).  Input is consumed in groups of four characters; a group may
end in one or two padding characters (code 61) only at the very end of the
input; any other shape or any character outside the alphabet fails. -/
def b64Chunks : List Char → Option (List ℕ)
  | [] => some []
  | c1 :: c2 :: c3 :: c4 :: rest =>
    match b64Val c1, b64Val c2 with
    | some v1, some v2 =>
      if c3.toNat = 61 then
        if c4.toNat = 61 ∧ rest = [] then some [v1 * 4 + v2 / 16] else none
      else
        match b64Val c3 with
        | some v3 =>
          if c4.toNat = 61 then
            if rest = [] then some [v1 * 4 + v2 / 16, v2 % 16 * 16 + v3 / 4]
            else none
          else
            match b64Val c4, b64Chunks rest with
            | some v4, some tail =>
              some ((v1 * 4 + v2 / 16) :: (v2 % 16 * 16 + v3 / 4) ::
                    (v3 % 4 * 64 + v4) :: tail)
            | _, _ => none
        | none => none
    | _, _ => none
  | [c1, c2] =>
    match b64Val c1, b64Val c2 with
    | some v1, some v2 => some [v1 * 4 + v2 / 16]
    | _, _ => none
  | [c1, c2, c3] =>
    match b64Val c1, b64Val c2, b64Val c3 with
    | some v1, some v2, some v3 =>
      some [v1 * 4 + v2 / 16, v2 % 16 * 16 + v3 / 4]
    | _, _, _ => none
  | _ => none

/-- Base64 decoding of a string to its byte sequence. -/
def base64Decode (s : String) : Option (List ℕ) := b64Chunks s.data

/-- The failure modes of the PCM decoder. -/
inductive DecodeError where
  | emptyInput
  | invalidBase64
  | oddLength
deriving DecidableEq

/-- Reinterpret two bytes as a little-endian signed 16-bit integer. -/
def toInt16 (lo hi : ℕ) : ℤ :=
  if lo + 256 * hi < 32768 then (lo + 256 * hi : ℤ)
  else (lo + 256 * hi : ℤ) - 65536

/-- The samples of a byte sequence: consecutive little-endian 16-bit pairs,
each divided by 32768. -/
def bytesToSamples : List ℕ → List ℚ
  | [] => []
  | [_] => []
  | lo :: hi :: rest => dequantize (toInt16 lo hi) :: bytesToSamples rest

/-- Modelled from the spec: `decodeBase64ToFloat32` of `utils/audioUtils.ts`
is not part of the given source tree.  Fails on an empty string, on a
base64 failure, and on an odd decoded byte length; otherwise converts each
little-endian 16-bit pair to `int16 / 32768`. -/
def decodeBase64ToFloat32 (s : String) : Except DecodeError (List ℚ) :=
  if s = "" then .error .emptyInput
  else
    match base64Decode s with
    | none => .error .invalidBase64
    | some bytes =>
      if bytes.length % 2 = 1 then .error .oddLength
      else .ok (bytesToSamples bytes)

/-- Truncating division remainder, the semantics of the JavaScript `%`
operator on finite operands: `a - b * trunc(a / b)`. -/
def jsMod (a b : ℚ) : ℚ :=
  a - b * (if 0 ≤ a / b then (⌊a / b⌋ : ℚ) else (⌈a / b⌉ : ℚ))

/-- The playback state of `AnalysisView`: the `isPlaying`, `progress` and
`duration` state variables, the `startTimeRef`, `pauseTimeRef`,
`audioContextRef`, `audioBufferRef`, `sourceNodeRef` and
`animationFrameRef` refs (contexts, buffers and sources are tracked by
presence), whether a completion callback is registered on the current
source, and the offset argument of the last `source.start` command. -/
structure PlayerState where
  hasCtx : Bool
  hasBuffer : Bool
  isPlaying : Bool
  progress : ℚ
  duration : ℚ
  startTime : ℚ
  pauseTime : ℚ
  hasSource : Bool
  animPending : Bool
  onendedRegistered : Bool
  lastStartOffset : Option ℚ
deriving DecidableEq

/-- One run of the `updateProgress` callback at device-clock time `now`:
recomputes `elapsed = pauseTimeRef + (currentTime - startTimeRef)`, sets
`progress` to `min (elapsed / duration) 1`, and requests another animation
frame exactly when `elapsed < duration`. -/
def updateProgress (s : PlayerState) (now : ℚ) : PlayerState :=
  if s.hasCtx = false then s
  else
    let elapsed := s.pauseTime + (now - s.startTime)
    { s with progress := min (elapsed / s.duration) 1,
             animPending := decide (elapsed < s.duration) }

/-- The `source.onended` handler at device-clock time `now`: when
`pauseTimeRef + (currentTime - startTimeRef) >= duration - 0.1` it clears
`isPlaying`, resets `pauseTimeRef` and `progress` to 0; otherwise it does
nothing. -/
def onended (s : PlayerState) (now : ℚ) : PlayerState :=
  if s.duration - 1 / 10 ≤ s.pauseTime + (now - s.startTime) then
    { s with isPlaying := false, pauseTime := 0, progress := 0 }
  else s

/-- `togglePlayback` at device-clock time `now`.  Returns unchanged when no
context or no buffer is present.  When playing: stops and drops the source,
folds `currentTime - startTimeRef` into `pauseTimeRef`, clears `isPlaying`
and cancels the pending animation frame.  Otherwise: creates a source,
registers the completion handler, starts it at offset
`pauseTimeRef % duration`, records `startTimeRef = currentTime`, sets
`isPlaying` and runs `updateProgress` once. -/
def togglePlayback (s : PlayerState) (now : ℚ) : PlayerState :=
  if s.hasCtx = false ∨ s.hasBuffer = false then s
  else if s.isPlaying then
    { s with hasSource := false,
             pauseTime := s.pauseTime + (now - s.startTime),
             isPlaying := false,
             animPending := false }
  else
    let offset := jsMod s.pauseTime s.duration
    updateProgress
      { s with onendedRegistered := true,
               hasSource := true,
               lastStartOffset := some offset,
               startTime := now,
               isPlaying := true } now

/-- The observable release commands issued by the effect cleanup. -/
inductive Action where
  | revokeUrl (u : ℕ)
  | closeCtx
  | cancelFrame
deriving DecidableEq

/-- The effect cleanup of `AnalysisView`, in source order: revoke the
closure-captured `downloadUrl` if non-null, then close the audio context if
present, then cancel the animation frame if one was requested. -/
def cleanupActions (capturedUrl : Option ℕ) (hasCtx animRequested : Bool) :
    List Action :=
  (match capturedUrl with
   | some u => [Action.revokeUrl u]
   | none => []) ++
  (if hasCtx then [Action.closeCtx] else []) ++
  (if animRequested then [Action.cancelFrame] else [])

/-- The init effect of `AnalysisView`: the cleanup closure captures the
`downloadUrl` state as of the render in which the effect ran, and only
afterwards does `initAudio` store the session's fresh object URL with
`setDownloadUrl`.  Returns the new `downloadUrl` state together with the
value the cleanup closure captured. -/
def runInitEffect (priorUrl : Option ℕ) (sessionUrl : ℕ) :
    Option ℕ × Option ℕ :=
  (some sessionUrl, priorUrl)

/-- The release commands that run when the view is discarded after one init
effect: the cleanup uses the captured URL, not the current state. -/
def unmountActions (st : Option ℕ × Option ℕ) (hasCtx animRequested : Bool) :
    List Action :=
  cleanupActions st.2 hasCtx animRequested

/-! ## Helper lemmas -/

theorem pcmBytes_length (samples : List ℚ) :
    (pcmBytes samples).length = 2 * samples.length := by
  induction samples with
  | nil => rfl
  | cons a l ih => simp [pcmBytes, int16ToBytes, u16le, ih]; ring

theorem createWavBlob_length (samples : List ℚ) (r : ℕ) :
    (createWavBlob samples r).length = 44 + 2 * samples.length := by
  simp [createWavBlob, u32le, u16le, pcmBytes_length]; omega

theorem wav_chunkId (samples : List ℚ) (r : ℕ) :
    (createWavBlob samples r).take 4 = [82, 73, 70, 70] := rfl

theorem wav_chunkSize (samples : List ℚ) (r : ℕ) :
    ((createWavBlob samples r).drop 4).take 4 =
      u32le (36 + samples.length * 2) := rfl

theorem wav_format (samples : List ℚ) (r : ℕ) :
    ((createWavBlob samples r).drop 8).take 4 = [87, 65, 86, 69] := rfl

theorem wav_fmtId (samples : List ℚ) (r : ℕ) :
    ((createWavBlob samples r).drop 12).take 4 = [102, 109, 116, 32] := rfl

theorem wav_fmtSize (samples : List ℚ) (r : ℕ) :
    ((createWavBlob samples r).drop 16).take 4 = u32le 16 := rfl

theorem wav_audioFormat (samples : List ℚ) (r : ℕ) :
    ((createWavBlob samples r).drop 20).take 2 = u16le 1 := rfl

theorem wav_channels (samples : List ℚ) (r : ℕ) :
    ((createWavBlob samples r).drop 22).take 2 = u16le 1 := rfl

theorem wav_sampleRate (samples : List ℚ) (r : ℕ) :
    ((createWavBlob samples r).drop 24).take 4 = u32le r := rfl

theorem wav_byteRate (samples : List ℚ) (r : ℕ) :
    ((createWavBlob samples r).drop 28).take 4 = u32le (r * 2) := rfl

theorem wav_blockAlign (samples : List ℚ) (r : ℕ) :
    ((createWavBlob samples r).drop 32).take 2 = u16le 2 := rfl

theorem wav_bitsPerSample (samples : List ℚ) (r : ℕ) :
    ((createWavBlob samples r).drop 34).take 2 = u16le 16 := rfl

theorem wav_dataId (samples : List ℚ) (r : ℕ) :
    ((createWavBlob samples r).drop 36).take 4 = [100, 97, 116, 97] := rfl

theorem wav_dataSize (samples : List ℚ) (r : ℕ) :
    ((createWavBlob samples r).drop 40).take 4 =
      u32le (samples.length * 2) := rfl

theorem wav_data (samples : List ℚ) (r : ℕ) :
    (createWavBlob samples r).drop 44 = pcmBytes samples := rfl

/-! ## Claim C1 -/

/-- Claim C1, counterexample: for the 2-second all-zero buffer at 24000 Hz
the claim asserts bytes 24-27 of the encoded WAV are `80 3E 00 00`; they
are in fact `C0 5D 00 00` (24000 in little-endian; `80 3E 00 00` would be
16000). -/
theorem wav_sampleRateBytes_counterexample :
    ((createWavBlob (List.replicate 48000 (0 : ℚ)) 24000).drop 24).take 4 =
      [192, 93, 0, 0] ∧
    ((createWavBlob (List.replicate 48000 (0 : ℚ)) 24000).drop 24).take 4 ≠
      [128, 62, 0, 0] :=
  ⟨(wav_sampleRate _ _).trans (by decide),
   by rw [wav_sampleRate]; decide⟩

/-- Claim C1 (amended): for every non-empty sample list the WAV encoder
produces a 44-byte header followed by the data bytes, with chunk id RIFF,
chunk size `36 + dataByteCount`, format id WAVE, an fmt subchunk of size 16
with audio format 1, channels 1, the input's sample rate, block align 2,
byte rate `sampleRate * 2`, bits per sample 16, and a data subchunk of size
`sampleCount * 2` holding the quantized samples little-endian; for the
2-second all-zero buffer at 24000 Hz the output is 96044 bytes with bytes
0-3 RIFF, bytes 8-11 WAVE, bytes 22-23 `01 00`, and bytes 24-27
`C0 5D 00 00` (24000 little-endian). -/
theorem createWavBlob_spec (samples : List ℚ) (r : ℕ) (h : samples ≠ []) :
    (createWavBlob samples r).length = 44 + 2 * samples.length ∧
    (createWavBlob samples r).take 4 = [82, 73, 70, 70] ∧
    ((createWavBlob samples r).drop 4).take 4 =
      u32le (36 + samples.length * 2) ∧
    ((createWavBlob samples r).drop 8).take 4 = [87, 65, 86, 69] ∧
    ((createWavBlob samples r).drop 12).take 4 = [102, 109, 116, 32] ∧
    ((createWavBlob samples r).drop 16).take 4 = u32le 16 ∧
    ((createWavBlob samples r).drop 20).take 2 = u16le 1 ∧
    ((createWavBlob samples r).drop 22).take 2 = u16le 1 ∧
    ((createWavBlob samples r).drop 24).take 4 = u32le r ∧
    ((createWavBlob samples r).drop 28).take 4 = u32le (r * 2) ∧
    ((createWavBlob samples r).drop 32).take 2 = u16le 2 ∧
    ((createWavBlob samples r).drop 34).take 2 = u16le 16 ∧
    ((createWavBlob samples r).drop 36).take 4 = [100, 97, 116, 97] ∧
    ((createWavBlob samples r).drop 40).take 4 =
      u32le (samples.length * 2) ∧
    (createWavBlob samples r).drop 44 = pcmBytes samples ∧
    (createWavBlob (List.replicate 48000 (0 : ℚ)) 24000).length = 96044 ∧
    (createWavBlob (List.replicate 48000 (0 : ℚ)) 24000).take 4 =
      [82, 73, 70, 70] ∧
    ((createWavBlob (List.replicate 48000 (0 : ℚ)) 24000).drop 8).take 4 =
      [87, 65, 86, 69] ∧
    ((createWavBlob (List.replicate 48000 (0 : ℚ)) 24000).drop 22).take 2 =
      [1, 0] ∧
    ((createWavBlob (List.replicate 48000 (0 : ℚ)) 24000).drop 24).take 4 =
      [192, 93, 0, 0] :=
  ⟨createWavBlob_length samples r, wav_chunkId samples r,
   wav_chunkSize samples r, wav_format samples r, wav_fmtId samples r,
   wav_fmtSize samples r, wav_audioFormat samples r, wav_channels samples r,
   wav_sampleRate samples r, wav_byteRate samples r,
   wav_blockAlign samples r, wav_bitsPerSample samples r,
   wav_dataId samples r, wav_dataSize samples r, wav_data samples r,
   by rw [createWavBlob_length, List.length_replicate],
   wav_chunkId _ _, wav_format _ _,
   (wav_channels _ _).trans (by decide),
   (wav_sampleRate _ _).trans (by decide)⟩

/-- Claim C1, witness: the amended theorem applied to the one-sample buffer
`[1/2]` at sample rate 8000. -/
theorem createWavBlob_spec_witness :
    ([(1 : ℚ) / 2] ≠ [] ∧
     (createWavBlob [(1 : ℚ) / 2] 8000).length = 46 ∧
     (createWavBlob [(1 : ℚ) / 2] 8000).take 4 = [82, 73, 70, 70] ∧
     ((createWavBlob [(1 : ℚ) / 2] 8000).drop 24).take 4 = u32le 8000 ∧
     (createWavBlob [(1 : ℚ) / 2] 8000).drop 44 = pcmBytes [(1 : ℚ) / 2]) :=
  ⟨by decide,
   ((createWavBlob_spec [(1 : ℚ) / 2] 8000 (by decide)).1).trans (by decide),
   (createWavBlob_spec [(1 : ℚ) / 2] 8000 (by decide)).2.1,
   (createWavBlob_spec [(1 : ℚ) / 2] 8000 (by decide)).2.2.2.2.2.2.2.2.1,
   (createWavBlob_spec [(1 : ℚ) / 2] 8000
     (by decide)).2.2.2.2.2.2.2.2.2.2.2.2.2.2.1⟩

/-! ## Decoder helper lemmas -/

theorem b64Val_lt {c : Char} {v : ℕ} (h : b64Val c = some v) : v < 64 := by
  unfold b64Val at h
  split_ifs at h with h1 h2 h3 h4 h5
  all_goals first
    | (injection h with hv; omega)
    | exact absurd h (by simp)

theorem b64Chunks_lt (cs : List Char) :
    ∀ bs, b64Chunks cs = some bs → ∀ b ∈ bs, b < 256 := by
  induction cs using b64Chunks.induct with
  | case1 =>
    intro bs h
    rw [b64Chunks] at h
    cases h
    simp
  | case2 c1 c2 c3 c4 rest v2 v1 h2 h1 hc3 hc4 =>
    intro bs h
    rw [b64Chunks] at h
    simp only [h1, h2, if_pos hc3, if_pos hc4] at h
    have hv1 := b64Val_lt h1
    have hv2 := b64Val_lt h2
    cases h
    simp
    omega
  | case3 c1 c2 c3 c4 rest v2 v1 h2 h1 hc3 hc4 =>
    intro bs h
    rw [b64Chunks] at h
    simp only [h1, h2, if_pos hc3, if_neg hc4] at h
    exact Option.noConfusion h
  | case4 c1 c2 c3 c4 v2 v1 h2 h1 hc3 v3 h3 hc4 =>
    intro bs h
    rw [b64Chunks] at h
    simp only [h1, h2, h3, if_neg hc3, if_pos hc4, if_pos rfl] at h
    have hv1 := b64Val_lt h1
    have hv2 := b64Val_lt h2
    have hv3 := b64Val_lt h3
    cases h
    simp
    constructor <;> omega
  | case5 c1 c2 c3 c4 rest v2 v1 h2 h1 hc3 v3 h3 hc4 hrest =>
    intro bs h
    rw [b64Chunks] at h
    simp only [h1, h2, h3, if_neg hc3, if_pos hc4, if_neg hrest] at h
    exact Option.noConfusion h
  | case6 c1 c2 c3 c4 rest v2 v1 h2 h1 hc3 v3 h3 hc4 v4 tail htail h4 ih =>
    intro bs h
    rw [b64Chunks] at h
    simp only [h1, h2, h3, h4, htail, if_neg hc3, if_neg hc4] at h
    have hv1 := b64Val_lt h1
    have hv2 := b64Val_lt h2
    have hv3 := b64Val_lt h3
    have hv4 := b64Val_lt h4
    cases h
    intro b hb
    simp at hb
    rcases hb with hb | hb | hb | hb
    · omega
    · omega
    · omega
    · exact ih tail htail b hb
  | case7 c1 c2 c3 c4 rest v2 v1 h2 h1 hc3 v3 h3 hc4 hnone ih =>
    intro bs h
    rw [b64Chunks] at h
    simp only [h1, h2, h3, if_neg hc3, if_neg hc4] at h
    exact Option.noConfusion h
  | case8 c1 c2 c3 c4 rest v2 v1 h2 h1 hc3 h3 =>
    intro bs h
    rw [b64Chunks] at h
    simp only [h1, h2, h3, if_neg hc3] at h
    exact Option.noConfusion h
  | case9 c1 c2 c3 c4 rest h12 =>
    intro bs h
    rw [b64Chunks] at h
    rcases hx : b64Val c1 with _ | v1 <;> rw [hx] at h
    · exact Option.noConfusion h
    rcases hy : b64Val c2 with _ | v2 <;> rw [hy] at h
    · exact Option.noConfusion h
    exact (h12 v1 v2 hx hy).elim
  | case10 c1 c2 v2 v1 h2 h1 =>
    intro bs h
    rw [b64Chunks] at h
    simp only [h1, h2] at h
    have hv1 := b64Val_lt h1
    have hv2 := b64Val_lt h2
    cases h
    simp
    omega
  | case11 c1 c2 h12 =>
    intro bs h
    rw [b64Chunks] at h
    rcases hx : b64Val c1 with _ | v1 <;> rw [hx] at h
    · exact Option.noConfusion h
    rcases hy : b64Val c2 with _ | v2 <;> rw [hy] at h
    · exact Option.noConfusion h
    exact (h12 v1 v2 hx hy).elim
  | case12 c1 c2 c3 v3 v2 v1 h3 h2 h1 =>
    intro bs h
    rw [b64Chunks] at h
    simp only [h1, h2, h3] at h
    have hv1 := b64Val_lt h1
    have hv2 := b64Val_lt h2
    have hv3 := b64Val_lt h3
    cases h
    simp
    constructor <;> omega
  | case13 c1 c2 c3 h123 =>
    intro bs h
    rw [b64Chunks] at h
    rcases hx : b64Val c1 with _ | v1 <;> rw [hx] at h
    · exact Option.noConfusion h
    rcases hy : b64Val c2 with _ | v2 <;> rw [hy] at h
    · exact Option.noConfusion h
    rcases hz : b64Val c3 with _ | v3 <;> rw [hz] at h
    · exact Option.noConfusion h
    exact (h123 v1 v2 v3 hx hy hz).elim
  | case14 t hnil hquad hpair htriple =>
    intro bs h
    rcases t with _ | ⟨a, _ | ⟨b, _ | ⟨c, _ | ⟨d, rest⟩⟩⟩⟩
    · exact absurd rfl hnil
    · rw [show b64Chunks [a] = none from rfl] at h
      cases h
    · exact absurd rfl (hpair a b)
    · exact absurd rfl (htriple a b c)
    · exact absurd rfl (hquad a b c d rest)

theorem bytesToSamples_length (bs : List ℕ) :
    (bytesToSamples bs).length = bs.length / 2 := by
  induction bs using bytesToSamples.induct with
  | case1 => rfl
  | case2 a => simp [bytesToSamples]
  | case3 lo hi rest ih => simp [bytesToSamples, ih]; omega

theorem toInt16_bounds {lo hi : ℕ} (hlo : lo < 256) (hhi : hi < 256) :
    -32768 ≤ toInt16 lo hi ∧ toInt16 lo hi < 32768 := by
  unfold toInt16
  split <;> omega

theorem dequantize_bounds {i : ℤ} (h1 : -32768 ≤ i) (h2 : i < 32768) :
    -1 ≤ dequantize i ∧ dequantize i ≤ 1 := by
  unfold dequantize
  have h1Q : (-32768 : ℚ) ≤ (i : ℚ) := by exact_mod_cast h1
  have h2Q : (i : ℚ) < 32768 := by exact_mod_cast h2
  constructor
  · rw [le_div_iff (by norm_num : (0 : ℚ) < 32768)]
    linarith
  · rw [div_le_one (by norm_num : (0 : ℚ) < 32768)]
    linarith

theorem bytesToSamples_bounds (bs : List ℕ) (hb : ∀ b ∈ bs, b < 256) :
    ∀ x ∈ bytesToSamples bs, -1 ≤ x ∧ x ≤ 1 := by
  induction bs using bytesToSamples.induct with
  | case1 =>
    intro x hx
    simp [bytesToSamples] at hx
  | case2 a =>
    intro x hx
    simp [bytesToSamples] at hx
  | case3 lo hi rest ih =>
    intro x hx
    simp only [bytesToSamples] at hx
    rcases List.mem_cons.1 hx with hx | hx
    · subst hx
      have hlo : lo < 256 := hb lo (by simp)
      have hhi : hi < 256 := hb hi (by simp)
      obtain ⟨g1, g2⟩ := toInt16_bounds hlo hhi
      exact dequantize_bounds g1 g2
    · exact ih (fun b hbb => hb b (by simp [hbb])) x hx

theorem bytesToSamples_get (bs : List ℕ) :
    ∀ i lo hi, bs[2 * i]? = some lo → bs[2 * i + 1]? = some hi →
      (bytesToSamples bs)[i]? = some (dequantize (toInt16 lo hi)) := by
  induction bs using bytesToSamples.induct with
  | case1 =>
    intro i lo hi h1 h2
    simp at h1
  | case2 a =>
    intro i lo hi h1 h2
    match i with
    | 0 =>
      rw [List.getElem?_eq_none (by simp)] at h2
      cases h2
    | n + 1 =>
      rw [List.getElem?_eq_none (by simp; omega)] at h1
      cases h1
  | case3 lo0 hi0 rest ih =>
    intro i lo hi h1 h2
    match i with
    | 0 =>
      simp at h1 h2
      subst h1
      subst h2
      simp [bytesToSamples]
    | n + 1 =>
      have e1 : 2 * (n + 1) = 2 * n + 1 + 1 := by ring
      have e2 : 2 * (n + 1) + 1 = 2 * n + 1 + 1 + 1 := by ring
      rw [e1] at h1
      rw [e2] at h2
      simp only [List.getElem?_cons_succ] at h1 h2
      simp only [bytesToSamples, List.getElem?_cons_succ]
      exact ih n lo hi h1 h2

/-! ## Claim C2 -/

/-- Claim C2: whenever the base64 payload decodes to a non-empty byte
sequence of even length, the PCM decoder succeeds with exactly
`byteLength / 2` samples; sample `i` is the little-endian signed 16-bit
value of bytes `2i, 2i+1` divided by 32768, and every sample lies in
`[-1, 1]`. -/
theorem decodeBase64ToFloat32_spec (s : String) (bs : List ℕ)
    (hdec : base64Decode s = some bs) (hne : bs ≠ [])
    (heven : bs.length % 2 = 0) :
    ∃ samples, decodeBase64ToFloat32 s = .ok samples ∧
      samples.length = bs.length / 2 ∧
      (∀ i lo hi, bs[2 * i]? = some lo → bs[2 * i + 1]? = some hi →
        samples[i]? = some (dequantize (toInt16 lo hi))) ∧
      ∀ x ∈ samples, -1 ≤ x ∧ x ≤ 1 := by
  have hs : s ≠ "" := by
    intro he
    subst he
    rw [show base64Decode "" = some [] from rfl] at hdec
    injection hdec with hdec
    exact hne hdec.symm
  refine ⟨bytesToSamples bs, ?_, bytesToSamples_length bs,
          bytesToSamples_get bs, bytesToSamples_bounds bs (b64Chunks_lt s.data bs hdec)⟩
  unfold decodeBase64ToFloat32
  rw [if_neg hs, hdec]
  simp only [if_neg (show ¬bs.length % 2 = 1 by omega)]

/-- Claim C2, witness: the payload `AAA=` decodes to the two bytes
`[0, 0]`, hence to the single sample 0. -/
theorem decodeBase64ToFloat32_spec_witness :
    base64Decode "AAA=" = some [0, 0] ∧ ([0, 0] : List ℕ) ≠ [] ∧
    ([0, 0] : List ℕ).length % 2 = 0 ∧
    ∃ samples, decodeBase64ToFloat32 "AAA=" = .ok samples ∧
      samples.length = ([0, 0] : List ℕ).length / 2 ∧
      (∀ i lo hi, ([0, 0] : List ℕ)[2 * i]? = some lo →
        ([0, 0] : List ℕ)[2 * i + 1]? = some hi →
        samples[i]? = some (dequantize (toInt16 lo hi))) ∧
      ∀ x ∈ samples, -1 ≤ x ∧ x ≤ 1 :=
  ⟨by decide, by decide, by decide,
   decodeBase64ToFloat32_spec "AAA=" [0, 0] (by decide) (by decide) (by decide)⟩

/-! ## Claim C9 -/

/-- Claim C9: the PCM decoder fails exactly on the empty string, on a
base64 decoding failure, or on an odd decoded byte length, with the
corresponding `DecodeError`; on every other input it succeeds. -/
theorem decodeBase64ToFloat32_error_spec (s : String) :
    (decodeBase64ToFloat32 s = .error .emptyInput ↔ s = "") ∧
    (decodeBase64ToFloat32 s = .error .invalidBase64 ↔
      s ≠ "" ∧ base64Decode s = none) ∧
    (decodeBase64ToFloat32 s = .error .oddLength ↔
      s ≠ "" ∧ ∃ bs, base64Decode s = some bs ∧ bs.length % 2 = 1) ∧
    ((∃ v, decodeBase64ToFloat32 s = .ok v) ↔
      s ≠ "" ∧ ∃ bs, base64Decode s = some bs ∧ bs.length % 2 = 0) := by
  unfold decodeBase64ToFloat32
  by_cases hs : s = ""
  · rw [if_pos hs]
    refine ⟨⟨fun _ => hs, fun _ => rfl⟩, ?_, ?_, ?_⟩ <;>
      constructor <;> simp_all
  · rw [if_neg hs]
    rcases hd : base64Decode s with _ | bs
    · refine ⟨?_, ?_, ?_, ?_⟩ <;> constructor <;> simp_all
    · by_cases hodd : bs.length % 2 = 1
      · simp only [if_pos hodd]
        refine ⟨?_, ?_, ?_, ?_⟩
        · simp [hs]
        · simp [hs]
        · simp [hs, hodd]
        · simp [hs, hodd]
      · have h0 : bs.length % 2 = 0 := by omega
        simp only [if_neg hodd]
        refine ⟨?_, ?_, ?_, ?_⟩
        · simp [hs]
        · simp [hs]
        · simp [hs, h0]
        · simp [hs, h0]

/-! ## Claim C8 -/

/-- Claim C8, counterexample: at `s = -65533/65534` (inside `[-1, 1]`) the
round trip `dequantize (quantize s)` misses `s` by about `1.5/32768`:
the claimed bound `1/32768` fails because quantization multiplies by 32767
while dequantization divides by 32768. -/
theorem quantize_bound_counterexample :
    (-1 : ℚ) ≤ -65533 / 65534 ∧ ((-65533 : ℚ) / 65534) ≤ 1 ∧
    ¬|dequantize (quantize (-65533 / 65534)) - (-65533 / 65534)| ≤
        1 / 32768 := by
  have hq : quantize (-65533 / 65534) = -32766 := by
    unfold quantize clamp1
    rw [min_eq_right (by norm_num), max_eq_right (by norm_num), round_eq]
    norm_num
  refine ⟨by norm_num, by norm_num, ?_⟩
  rw [hq]
  unfold dequantize
  rw [show ((-32766 : ℤ) : ℚ) / 32768 - (-65533 / 65534) =
        24575 / 536854528 by norm_num]
  rw [abs_of_pos (by norm_num)]
  norm_num

/-- Claim C8 (amended): for every sample `s` in `[-1, 1]`,
`|dequantize (quantize s) - s| ≤ 3/65536` (that is, `1.5/32768`; the
original bound `1/32768` only fails by the extra `|s|/32768` term coming
from the 32767/32768 scale mismatch). -/
theorem quantize_dequantize_bound (s : ℚ) (h1 : -1 ≤ s) (h2 : s ≤ 1) :
    |dequantize (quantize s) - s| ≤ 3 / 65536 := by
  have hc : clamp1 s = s := by
    unfold clamp1
    rw [min_eq_right h2, max_eq_right h1]
  unfold quantize dequantize
  rw [hc]
  have hr : |s * 32767 - (round (s * 32767) : ℚ)| ≤ 1 / 2 :=
    abs_sub_round (s * 32767)
  have hs : |s| ≤ 1 := abs_le.mpr ⟨h1, h2⟩
  have e : (round (s * 32767) : ℚ) / 32768 - s =
      (((round (s * 32767) : ℚ) - s * 32767) + (-s)) / 32768 := by ring
  rw [e, abs_div]
  rw [abs_of_pos (by norm_num : (0 : ℚ) < 32768)]
  rw [div_le_div_iff (by norm_num : (0 : ℚ) < 32768)
      (by norm_num : (0 : ℚ) < 65536)]
  have tri : |((round (s * 32767) : ℚ) - s * 32767) + (-s)| ≤
      |(round (s * 32767) : ℚ) - s * 32767| + |(-s)| := abs_add _ _
  rw [abs_neg] at tri
  have hr2 : |(round (s * 32767) : ℚ) - s * 32767| ≤ 1 / 2 := by
    rw [abs_sub_comm]
    exact hr
  nlinarith [tri, hr2, hs]

/-- Claim C8, witness: the amended bound applied at `s = 1/2`. -/
theorem quantize_dequantize_bound_witness :
    (-1 : ℚ) ≤ 1 / 2 ∧ ((1 : ℚ) / 2) ≤ 1 ∧
    |dequantize (quantize (1 / 2)) - (1 / 2)| ≤ 3 / 65536 :=
  ⟨by norm_num, by norm_num,
   quantize_dequantize_bound (1 / 2) (by norm_num) (by norm_num)⟩

/-! ## Playback helper definitions and lemmas -/

theorem jsMod_zero (d : ℚ) : jsMod 0 d = 0 := by
  unfold jsMod
  simp

/-- A freshly initialized session: context and buffer present, not playing,
nothing elapsed (duration 10 seconds). -/
def readyState : PlayerState :=
  { hasCtx := true, hasBuffer := true, isPlaying := false, progress := 0,
    duration := 10, startTime := 0, pauseTime := 0, hasSource := false,
    animPending := false, onendedRegistered := false, lastStartOffset := none }

/-- A session whose audio failed to initialize: no device context. -/
def uninitState : PlayerState :=
  { hasCtx := false, hasBuffer := false, isPlaying := false, progress := 0,
    duration := 0, startTime := 0, pauseTime := 0, hasSource := false,
    animPending := false, onendedRegistered := false, lastStartOffset := none }

/-- A stale completion scenario: accumulated elapsed time 2 s against a
1-second buffer (the completion callback of a superseded session). -/
def staleState : PlayerState :=
  { hasCtx := true, hasBuffer := true, isPlaying := true, progress := 1,
    duration := 1, startTime := 0, pauseTime := 2, hasSource := true,
    animPending := true, onendedRegistered := true, lastStartOffset := some 0 }

/-- A session playing its 10-second buffer from the start, observed by the
completion callback at device time 10. -/
def finishingState : PlayerState :=
  { hasCtx := true, hasBuffer := true, isPlaying := true, progress := 1,
    duration := 10, startTime := 0, pauseTime := 0, hasSource := true,
    animPending := true, onendedRegistered := true, lastStartOffset := some 0 }

/-! ## Claim C10 -/

/-- Claim C10: with no device context or no decoded buffer, the play/pause
toggle is a no-op: the whole session state is returned unchanged. -/
theorem togglePlayback_uninit_noop (s : PlayerState) (now : ℚ)
    (h : s.hasCtx = false ∨ s.hasBuffer = false) :
    togglePlayback s now = s := by
  unfold togglePlayback
  rw [if_pos h]

/-- Claim C10, witness: toggling an uninitialized session at device time 5
changes nothing. -/
theorem togglePlayback_uninit_noop_witness :
    (uninitState.hasCtx = false ∨ uninitState.hasBuffer = false) ∧
    togglePlayback uninitState 5 = uninitState :=
  ⟨Or.inl rfl, togglePlayback_uninit_noop uninitState 5 (Or.inl rfl)⟩

/-! ## Claim C5 -/

/-- Claim C5: from any non-playing state with context and buffer present
(Ready, Paused or Ended), the toggle starts the source at offset
`pauseTime % duration` (0 when `pauseTime = 0`, i.e. from Ready/Ended),
records the device clock as the start timestamp, registers the completion
callback and enters Playing. -/
theorem togglePlayback_play_spec (s : PlayerState) (now : ℚ)
    (hc : s.hasCtx = true) (hb : s.hasBuffer = true)
    (hp : s.isPlaying = false) :
    (togglePlayback s now).isPlaying = true ∧
    (togglePlayback s now).startTime = now ∧
    (togglePlayback s now).onendedRegistered = true ∧
    (togglePlayback s now).hasSource = true ∧
    (togglePlayback s now).lastStartOffset =
      some (jsMod s.pauseTime s.duration) ∧
    (s.pauseTime = 0 → (togglePlayback s now).lastStartOffset = some 0) := by
  unfold togglePlayback updateProgress
  rw [if_neg (by simp [hc, hb])]
  rw [if_neg (by simp [hp])]
  rw [if_neg (by simp [hc])]
  refine ⟨rfl, rfl, rfl, rfl, rfl, fun hz => ?_⟩
  simp [hz, jsMod_zero]

/-- Claim C5, witness: starting the fresh 10-second session at device time
3 plays from offset 0. -/
theorem togglePlayback_play_spec_witness :
    readyState.hasCtx = true ∧ readyState.hasBuffer = true ∧
    readyState.isPlaying = false ∧
    ((togglePlayback readyState 3).isPlaying = true ∧
     (togglePlayback readyState 3).startTime = 3 ∧
     (togglePlayback readyState 3).onendedRegistered = true ∧
     (togglePlayback readyState 3).hasSource = true ∧
     (togglePlayback readyState 3).lastStartOffset =
       some (jsMod readyState.pauseTime readyState.duration) ∧
     (readyState.pauseTime = 0 →
       (togglePlayback readyState 3).lastStartOffset = some 0)) :=
  ⟨rfl, rfl, rfl, togglePlayback_play_spec readyState 3 rfl rfl rfl⟩

/-! ## Claim C3 -/

/-- Claim C3: pausing from Playing stops the source, adds exactly the
device-clock interval since the last start to the accumulated elapsed
time, leaves Playing, and cancels the polling loop; playing for
`t1 - t0`, pausing, resuming at `t2` and pausing at `t3` accumulates
`(t1 - t0) + (t3 - t2)`, exactly what one uninterrupted run of the same
total length accumulates. -/
theorem pause_additivity (s : PlayerState) (t0 t1 t2 t3 : ℚ)
    (hc : s.hasCtx = true) (hb : s.hasBuffer = true)
    (hp : s.isPlaying = false) (hz : s.pauseTime = 0) :
    (togglePlayback (togglePlayback s t0) t1).isPlaying = false ∧
    (togglePlayback (togglePlayback s t0) t1).hasSource = false ∧
    (togglePlayback (togglePlayback s t0) t1).animPending = false ∧
    (togglePlayback (togglePlayback s t0) t1).pauseTime = t1 - t0 ∧
    (togglePlayback (togglePlayback (togglePlayback (togglePlayback s t0)
        t1) t2) t3).pauseTime = (t1 - t0) + (t3 - t2) ∧
    (togglePlayback (togglePlayback s t0)
        (t0 + ((t1 - t0) + (t3 - t2)))).pauseTime =
      (togglePlayback (togglePlayback (togglePlayback (togglePlayback s t0)
        t1) t2) t3).pauseTime := by
  simp only [togglePlayback, updateProgress]
  simp [hc, hb, hp, hz]

/-- Claim C3, witness: play at 0, pause at 2, resume at 5, pause at 6 on
the fresh session: 3 seconds accumulate, as in one uninterrupted 3-second
run. -/
theorem pause_additivity_witness :
    readyState.hasCtx = true ∧ readyState.hasBuffer = true ∧
    readyState.isPlaying = false ∧ readyState.pauseTime = 0 ∧
    ((togglePlayback (togglePlayback readyState 0) 2).isPlaying = false ∧
     (togglePlayback (togglePlayback readyState 0) 2).hasSource = false ∧
     (togglePlayback (togglePlayback readyState 0) 2).animPending = false ∧
     (togglePlayback (togglePlayback readyState 0) 2).pauseTime = 2 - 0 ∧
     (togglePlayback (togglePlayback (togglePlayback (togglePlayback
         readyState 0) 2) 5) 6).pauseTime = (2 - 0) + (6 - 5) ∧
     (togglePlayback (togglePlayback readyState 0)
         (0 + ((2 - 0) + (6 - 5)))).pauseTime =
       (togglePlayback (togglePlayback (togglePlayback (togglePlayback
         readyState 0) 2) 5) 6).pauseTime) :=
  ⟨rfl, rfl, rfl, rfl, pause_additivity readyState 0 2 5 6 rfl rfl rfl rfl⟩

/-! ## Claim C6 -/

/-- Claim C6: with a positive duration, non-negative accumulated time and
a monotone device clock, each progress sample equals the elapsed time
clamped to `[0, duration]` divided by duration, lies in `[0, 1]`, is
non-decreasing in the clock, and another polling frame is requested
exactly while elapsed < duration. -/
theorem updateProgress_spec (s : PlayerState) (t1 t2 : ℚ)
    (hc : s.hasCtx = true) (hd : 0 < s.duration) (hpz : 0 ≤ s.pauseTime)
    (h1 : s.startTime ≤ t1) (h12 : t1 ≤ t2) :
    (updateProgress s t1).progress =
      max 0 (min (s.pauseTime + (t1 - s.startTime)) s.duration) /
        s.duration ∧
    0 ≤ (updateProgress s t1).progress ∧
    (updateProgress s t1).progress ≤ 1 ∧
    (updateProgress s t1).progress ≤ (updateProgress s t2).progress ∧
    ((updateProgress s t1).animPending = true ↔
      s.pauseTime + (t1 - s.startTime) < s.duration) := by
  have he1 : 0 ≤ s.pauseTime + (t1 - s.startTime) := by linarith
  have he2 : 0 ≤ s.pauseTime + (t2 - s.startTime) := by linarith
  unfold updateProgress
  rw [if_neg (by simp [hc]), if_neg (by simp [hc])]
  refine ⟨?_, ?_, ?_, ?_, ?_⟩
  · show min ((s.pauseTime + (t1 - s.startTime)) / s.duration) 1 = _
    rw [max_eq_right (le_min he1 (le_of_lt hd))]
    rw [← min_div_div_right (le_of_lt hd), div_self (ne_of_gt hd)]
  · show 0 ≤ min ((s.pauseTime + (t1 - s.startTime)) / s.duration) 1
    exact le_min (div_nonneg he1 (le_of_lt hd)) zero_le_one
  · show min ((s.pauseTime + (t1 - s.startTime)) / s.duration) 1 ≤ 1
    exact min_le_right _ _
  · show min ((s.pauseTime + (t1 - s.startTime)) / s.duration) 1 ≤
        min ((s.pauseTime + (t2 - s.startTime)) / s.duration) 1
    exact min_le_min ((div_le_div_right hd).mpr (by linarith)) le_rfl
  · show decide (s.pauseTime + (t1 - s.startTime) < s.duration) = true ↔ _
    exact decide_eq_true_iff

/-- Claim C6, witness: the fresh 10-second session polled at device times
3 then 7. -/
theorem updateProgress_spec_witness :
    readyState.hasCtx = true ∧ (0 : ℚ) < readyState.duration ∧
    (0 : ℚ) ≤ readyState.pauseTime ∧ readyState.startTime ≤ (3 : ℚ) ∧
    (3 : ℚ) ≤ 7 ∧
    ((updateProgress readyState 3).progress =
       max 0 (min (readyState.pauseTime + (3 - readyState.startTime))
         readyState.duration) / readyState.duration ∧
     0 ≤ (updateProgress readyState 3).progress ∧
     (updateProgress readyState 3).progress ≤ 1 ∧
     (updateProgress readyState 3).progress ≤
       (updateProgress readyState 7).progress ∧
     ((updateProgress readyState 3).animPending = true ↔
       readyState.pauseTime + (3 - readyState.startTime) <
         readyState.duration)) :=
  ⟨rfl, by norm_num [readyState], by norm_num [readyState],
   by norm_num [readyState], by norm_num,
   updateProgress_spec readyState 3 7 rfl (by norm_num [readyState])
     (by norm_num [readyState]) (by norm_num [readyState]) (by norm_num)⟩

/-! ## Claim C4 -/

/-- Claim C4, counterexample: a completion callback whose elapsed time
(2 s) overshoots the 1-second duration by more than the 0.1 s tolerance is
not "within 0.1 seconds of the duration", yet the handler still resets the
session (the guard `elapsed >= duration - 0.1` is one-sided), so the state
does not stay unchanged as the claim requires. -/
theorem onended_tolerance_counterexample :
    staleState.duration + 1 / 10 <
      staleState.pauseTime + (0 - staleState.startTime) ∧
    (onended staleState 0).pauseTime = 0 ∧
    (onended staleState 0).progress = 0 ∧
    (onended staleState 0).isPlaying = false ∧
    onended staleState 0 ≠ staleState := by
  have hcomp : onended staleState 0 =
      { staleState with isPlaying := false, pauseTime := 0,
                        progress := 0 } := by
    unfold onended
    rw [if_pos (by norm_num [staleState])]
  refine ⟨by norm_num [staleState], ?_, ?_, ?_, ?_⟩
  · rw [hcomp]
  · rw [hcomp]
  · rw [hcomp]
  · rw [hcomp]
    intro h
    have := congrArg PlayerState.pauseTime h
    simp [staleState] at this

/-- Claim C4 (amended): the completion handler resets the accumulated time
to 0 and leaves Playing exactly when the elapsed time is at least
`duration - 0.1` (the tolerance is one-sided, so any overshoot also
resets); a callback with elapsed below `duration - 0.1` leaves the
session state unchanged, and a play issued after a natural end starts
again from offset 0. -/
theorem onended_spec (s : PlayerState) (now t : ℚ)
    (hp : s.isPlaying = true) (hc : s.hasCtx = true)
    (hb : s.hasBuffer = true) :
    (s.duration - 1 / 10 ≤ s.pauseTime + (now - s.startTime) →
      (onended s now).isPlaying = false ∧
      (onended s now).pauseTime = 0 ∧
      (onended s now).progress = 0 ∧
      (togglePlayback (onended s now) t).lastStartOffset = some 0 ∧
      (togglePlayback (onended s now) t).isPlaying = true) ∧
    (s.pauseTime + (now - s.startTime) < s.duration - 1 / 10 →
      onended s now = s) := by
  constructor
  · intro h
    unfold onended
    rw [if_pos h]
    refine ⟨rfl, rfl, rfl, ?_, ?_⟩
    · unfold togglePlayback updateProgress
      rw [if_neg (by simp [hc, hb])]
      rw [if_neg (by simp)]
      rw [if_neg (by simp [hc])]
      simp [jsMod_zero]
    · unfold togglePlayback updateProgress
      rw [if_neg (by simp [hc, hb])]
      rw [if_neg (by simp)]
      rw [if_neg (by simp [hc])]
  · intro h
    unfold onended
    rw [if_neg (not_le.mpr (by linarith))]

/-- Claim C4, witness: the amended behaviour at a genuine natural end
(elapsed 10 s of a 10-second buffer) followed by a replay at device time
11. -/
theorem onended_spec_witness :
    finishingState.isPlaying = true ∧ finishingState.hasCtx = true ∧
    finishingState.hasBuffer = true ∧
    ((finishingState.duration - 1 / 10 ≤
        finishingState.pauseTime + (10 - finishingState.startTime) →
      (onended finishingState 10).isPlaying = false ∧
      (onended finishingState 10).pauseTime = 0 ∧
      (onended finishingState 10).progress = 0 ∧
      (togglePlayback (onended finishingState 10) 11).lastStartOffset =
        some 0 ∧
      (togglePlayback (onended finishingState 10) 11).isPlaying = true) ∧
    (finishingState.pauseTime + (10 - finishingState.startTime) <
        finishingState.duration - 1 / 10 →
      onended finishingState 10 = finishingState)) :=
  ⟨rfl, rfl, rfl, onended_spec finishingState 10 11 rfl rfl rfl⟩

/-! ## Claim C7 -/

/-- Claim C7: evaluating the effect cleanup after one init effect shows
two violations of the claimed release discipline.  The cleanup closure
captured the pre-session `downloadUrl` (null), so the session's own object
URL (1) is never revoked — not released exactly once — and the action
sequence closes the device context before cancelling the pending
animation frame, not after. -/
theorem cleanup_release_bug :
    unmountActions (runInitEffect none 1) true true =
      [Action.closeCtx, Action.cancelFrame] ∧
    Action.revokeUrl 1 ∉ unmountActions (runInitEffect none 1) true true :=
  ⟨rfl, by decide⟩

end AudioCore
